import Mathlib

/-
Verification of the tenant-isolating proxy gateway (site agent) and the
deployment convergence controller (marathon deployer) of the repository.

The Go sources are shallowly embedded:
 - pkg/cmd/infra/siteagent/server.go  (namespace SiteAgent)
 - pkg/cmd/infra/deployer/marathon-deployer.go  (namespace Deployer)

Remote scheduler interactions are modelled by explicit oracle inputs: a
handler or controller run receives the responses the remote side would
give and we record the list of remote calls it issues.  Go pointer
results of the scheduler client are modelled as Option values (the
client returns nil exactly when it returns an error or the resource is
absent); a nil-pointer dereference is modelled as an explicit panic
outcome.  Time is discrete: the 2-second sleep between poll iterations
means a poll loop with deadline t performs polls at elapsed times
0, 2, 4, ... and hence at most t / 2 + 1 polls before timing out.
-/

namespace SiteAgent

/-! ### Router model

`createRouter` (server.go) registers, per HTTP method and path, an
ordered list of routes, each given by required query key/value matchers:
the value is either a gorilla-mux variable pattern (matching any present
value) or a literal string.  Dispatch is first-match-wins in
registration order. -/

/-- A required query value matcher: a mux `{var}` pattern or a literal. -/
inductive QPat where
  | anyVal : QPat
  | exact : String → QPat
deriving DecidableEq, Repr

/-- One registered route: handler name and required query matchers. -/
structure Route where
  handler : String
  queries : List (String × QPat)
deriving DecidableEq, Repr

/-- A request query, as key/value pairs (first occurrence of a key wins). -/
abbrev Query := List (String × String)

/-- Look up the value of a query key. -/
def findQ (q : Query) (k : String) : Option String :=
  match q.find? (fun p => p.1 == k) with
  | some p => some p.2
  | none => none

/-- Does the request query satisfy one required key/value matcher? -/
def pairMatches (q : Query) (kp : String × QPat) : Bool :=
  match findQ q kp.1, kp.2 with
  | some _, QPat.anyVal => true
  | some v, QPat.exact s => v == s
  | none, _ => false

/-- Does the request query satisfy all of a route's required matchers? -/
def routeMatches (q : Query) (r : Route) : Bool :=
  r.queries.all (pairMatches q)

/-- First-match-wins dispatch over a route list in registration order. -/
def dispatch (routes : List Route) (q : Query) : Option Route :=
  routes.find? (routeMatches q)

/-- The required query keys of a route. -/
def routeKeys (r : Route) : List String :=
  r.queries.map (fun kp => kp.1)

/-- Every required key of `r1` is a required key of `r2`. -/
def keysIncluded (r1 r2 : Route) : Bool :=
  (routeKeys r1).all (fun k => (routeKeys r2).contains k)

/-- The key set of `r1` is a strict subset of the key set of `r2`. -/
def keysStrictlyBelow (r1 r2 : Route) : Bool :=
  keysIncluded r1 r2 && !keysIncluded r2 r1

/-- `r1` and `r2` demand different literal values for a common key, so no
request query (with single-valued keys) can satisfy both. -/
def litConflict (r1 r2 : Route) : Bool :=
  r1.queries.any (fun a => r2.queries.any (fun b =>
    a.1 == b.1 &&
      (match a.2, b.2 with
       | QPat.exact x, QPat.exact y => x != y
       | _, _ => false)))

/-- Registration-order specificity discipline for the pair `(r1, r2)`
with `r1` registered before `r2`: `r1`'s keys must not be a strict
subset of `r2`'s, unless their literals conflict or the pair is the
named exception. -/
def pairOk (ex1 ex2 : String) (r1 r2 : Route) : Bool :=
  !keysStrictlyBelow r1 r2 || litConflict r1 r2 ||
    (r1.handler == ex1 && r2.handler == ex2)

/-- `pairOk` holds of every ordered pair of the route list. -/
def specificityOrderOk (ex1 ex2 : String) : List Route → Bool
  | [] => true
  | r :: rs => rs.all (pairOk ex1 ex2 r) && specificityOrderOk ex1 ex2 rs

/-! The GET /proxy route table, in the registration (slice) order of
`createRouter`.  Constants from pkg/site/siteagent/siteagent.go. -/

def getVersionListRoute : Route :=
  ⟨"getVersionList",
   [("sites", QPat.anyVal), ("projects", QPat.anyVal),
    ("applications", QPat.anyVal), ("attributes", QPat.exact "versions")]⟩

def getVersionRoute : Route :=
  ⟨"getVersion",
   [("sites", QPat.anyVal), ("projects", QPat.anyVal),
    ("applications", QPat.anyVal), ("versions", QPat.anyVal)]⟩

def getTaskListRoute : Route :=
  ⟨"getTaskList",
   [("sites", QPat.anyVal), ("projects", QPat.anyVal),
    ("applications", QPat.anyVal), ("attributes", QPat.exact "tasks")]⟩

def getApplicationRoute : Route :=
  ⟨"getApplication",
   [("sites", QPat.anyVal), ("projects", QPat.anyVal),
    ("applications", QPat.anyVal)]⟩

def getProjectApplicationListRoute : Route :=
  ⟨"getProjectApplicationList",
   [("sites", QPat.anyVal), ("projects", QPat.anyVal),
    ("attributes", QPat.exact "applications")]⟩

def getApplicationListRoute : Route :=
  ⟨"getApplicationList",
   [("sites", QPat.anyVal), ("attributes", QPat.exact "applications")]⟩

def getJobRoute : Route :=
  ⟨"getJob",
   [("sites", QPat.anyVal), ("projects", QPat.anyVal),
    ("jobs", QPat.anyVal)]⟩

def getProjectJobListRoute : Route :=
  ⟨"getProjectJobList",
   [("sites", QPat.anyVal), ("projects", QPat.anyVal),
    ("attributes", QPat.exact "jobs")]⟩

def getDeploymentRoute : Route :=
  ⟨"getDeployment",
   [("sites", QPat.anyVal), ("projects", QPat.anyVal),
    ("deployments", QPat.anyVal)]⟩

def getProjectDeploymentListRoute : Route :=
  ⟨"getProjectDeploymentList",
   [("sites", QPat.anyVal), ("projects", QPat.anyVal),
    ("attributes", QPat.exact "deployments")]⟩

def getProjectListRoute : Route :=
  ⟨"getProjectList",
   [("sites", QPat.anyVal), ("attributes", QPat.exact "projects")]⟩

def getProjectRoute : Route :=
  ⟨"getProject", [("sites", QPat.anyVal), ("projects", QPat.anyVal)]⟩

def getProjectQuotaRoute : Route :=
  ⟨"getProjectQuota",
   [("sites", QPat.anyVal), ("projects", QPat.anyVal),
    ("attributes", QPat.exact "quota")]⟩

def getSiteInfoRoute : Route :=
  ⟨"getSiteInfo", [("sites", QPat.anyVal), ("attributes", QPat.exact "info")]⟩

def getSiteLeaderRoute : Route :=
  ⟨"getSiteLeader", [("sites", QPat.anyVal), ("attributes", QPat.exact "leader")]⟩

def getSiteListRoute : Route :=
  ⟨"getSiteList", [("sites", QPat.anyVal), ("attributes", QPat.exact "list")]⟩

/-- GET /proxy routes in registration order. -/
def getProxyRoutes : List Route :=
  [getVersionListRoute, getVersionRoute, getTaskListRoute,
   getApplicationRoute, getProjectApplicationListRoute,
   getApplicationListRoute, getJobRoute, getProjectJobListRoute,
   getDeploymentRoute, getProjectDeploymentListRoute,
   getProjectListRoute, getProjectRoute, getProjectQuotaRoute,
   getSiteInfoRoute, getSiteLeaderRoute, getSiteListRoute]

/-- PUT /proxy routes in registration order. -/
def putProxyRoutes : List Route :=
  [⟨"putProjectQuota",
    [("sites", QPat.anyVal), ("projects", QPat.anyVal),
     ("attributes", QPat.exact "quota")]⟩,
   ⟨"putApplicationRestart",
    [("sites", QPat.anyVal), ("projects", QPat.anyVal),
     ("applications", QPat.anyVal), ("attributes", QPat.exact "restart")]⟩,
   ⟨"putApplicationScale",
    [("sites", QPat.anyVal), ("projects", QPat.anyVal),
     ("applications", QPat.anyVal), ("replicas", QPat.anyVal)]⟩,
   ⟨"putApplication",
    [("sites", QPat.anyVal), ("projects", QPat.anyVal),
     ("applications", QPat.anyVal)]⟩]

/-- POST /proxy routes in registration order. -/
def postProxyRoutes : List Route :=
  [⟨"postApplication",
    [("sites", QPat.anyVal), ("projects", QPat.anyVal),
     ("attributes", QPat.exact "applications")]⟩,
   ⟨"postJob",
    [("sites", QPat.anyVal), ("projects", QPat.anyVal),
     ("attributes", QPat.exact "jobs")]⟩]

/-- DELETE /proxy routes in registration order. -/
def deleteProxyRoutes : List Route :=
  [⟨"deleteTasks",
    [("sites", QPat.anyVal), ("projects", QPat.anyVal),
     ("applications", QPat.anyVal), ("attributes", QPat.exact "tasks")]⟩,
   ⟨"deleteApplication",
    [("sites", QPat.anyVal), ("projects", QPat.anyVal),
     ("applications", QPat.anyVal)]⟩,
   ⟨"deleteJob",
    [("sites", QPat.anyVal), ("projects", QPat.anyVal),
     ("jobs", QPat.anyVal)]⟩,
   ⟨"deleteDeployment",
    [("sites", QPat.anyVal), ("projects", QPat.anyVal),
     ("deployments", QPat.anyVal)]⟩,
   ⟨"deleteProject",
    [("sites", QPat.anyVal), ("projects", QPat.anyVal)]⟩]

/-! ### deleteTasks handler (server.go, DELETE tasks)

The handler reads the body's task id list, and rejects the request
(406, via `handleError`) as soon as one task id does not start with the
prefix `"<project>_<app>."`; only if every id carries the prefix does it
call the scheduler client's KillTasks.  The embedding returns the HTTP
status and, when KillTasks was invoked, its arguments (ids, scale). -/

/-- Character-level string prefix test: the meaning of Go's
`strings.HasPrefix(s, p)` on well-formed UTF-8 strings. -/
def strHasPrefix (s p : String) : Bool :=
  p.data.isPrefixOf s.data

/-- Embedding of `deleteTasks`.  `killRes` is the scheduler client's
response to a KillTasks call, consulted only if the call is made. -/
def deleteTasks (cfgSite siteId projId appId : String) (taskIds : List String)
    (scaleOpt : Bool) (killRes : Except String Unit) :
    Nat × Option (List String × Bool) :=
  if siteId != cfgSite then (406, none)
  else
    let safeAppId := projId ++ "_" ++ appId ++ "."
    match taskIds.find? (fun t => !strHasPrefix t safeAppId) with
    | some _ => (406, none)
    | none =>
      match killRes with
      | Except.ok _ => (200, some (taskIds, scaleOpt))
      | Except.error _ => (406, some (taskIds, scaleOpt))

/-! ### getProjectApplicationList handler (server.go)

The Go handler runs
  `project, err := s.backend.MarathonClient.Group(projId)`
  `applications := project.Apps`
reading `project.Apps` BEFORE inspecting `err`.  The scheduler client
returns a nil group pointer exactly when it returns an error, so the
read is a nil-pointer dereference whenever the remote call fails.  The
embedding makes the dereference explicit. -/

/-- Errors of the scheduler client, as classified by the gateway. -/
inductive MarathonError where
  | notFound : MarathonError
  | other : String → MarathonError
deriving DecidableEq, Repr

/-- A remote group (project); only the application list is relevant. -/
structure MarathonGroup where
  apps : List String
deriving DecidableEq, Repr

/-- A Go runtime panic reached by the embedded code. -/
inductive GoPanic where
  | nilDereference : GoPanic
deriving DecidableEq, Repr

/-- Embedding of `getProjectApplicationList`.  `groupPtr`/`groupErr` are
the two results of the remote `Group(projId)` call.  The returned `Nat`
is the HTTP status written on the non-panicking paths. -/
def getProjectApplicationList (cfgSite siteId projId : String)
    (groupPtr : Option MarathonGroup) (groupErr : Option MarathonError) :
    Except GoPanic Nat :=
  if siteId != cfgSite then Except.ok 406
  else
    match groupPtr with
    | none => Except.error GoPanic.nilDereference
    | some _ =>
      match groupErr with
      | none => Except.ok 200
      | some MarathonError.notFound => Except.ok 404
      | some (MarathonError.other _) => Except.ok 406

/-! ### Concrete requests used in the routing theorems -/

/-- A request carrying the sites, projects and attributes=quota keys:
it satisfies the project-quota route in full. -/
def quotaQuery : Query :=
  [("sites", "west"), ("projects", "p1"), ("attributes", "quota")]

/-- The version-list request of the claim: sites, projects,
applications and attributes=versions. -/
def versionListQuery : Query :=
  [("sites", "west"), ("projects", "p1"), ("applications", "web"),
   ("attributes", "versions")]

end SiteAgent

namespace Deployer

/-! ### Marathon data model (fields used by marathon-deployer.go) -/

/-- A health check; only the grace period feeds the deadline computation. -/
structure HealthCheck where
  gracePeriodSeconds : Nat
deriving DecidableEq, Repr

/-- One recorded health check result of a task. -/
structure HealthCheckResult where
  alive : Bool
deriving DecidableEq, Repr

/-- One task of an application.  An entry of `healthCheckResults` can be
nil in Go when the task is flapping, hence `Option`. -/
structure MarathonTask where
  healthCheckResults : List (Option HealthCheckResult)
deriving DecidableEq, Repr

/-- A marathon application as consumed by the deployer.  Go pointer
fields that the code dereferences unconditionally (`Instances`) are
plain values.  `deployments` holds the ids of the active remote
deployments (`Deployments[i]["id"]` in Go).

`allTaskRunning` — Modelled from the spec: the `AllTaskRunning()`
helper lives in the external go_marathon client, whose source is not
part of this repository; per the spec it reports that "every task is in
a running state", so its outcome is carried as a field. -/
structure Application where
  id : String
  instances : Int
  allTaskRunning : Bool
  healthChecks : Option (List HealthCheck)
  tasks : List MarathonTask
  deployments : List String
deriving DecidableEq, Repr

/-- A deployment id returned by mutating scheduler calls. -/
structure DeploymentID where
  deploymentId : String
  version : String
deriving DecidableEq, Repr

/-- Terminal/progress states of a control-plane deployment record
(deployapi.DeploymentStatus). -/
inductive RecordStatus where
  | new : RecordStatus
  | pending : RecordStatus
  | running : RecordStatus
  | complete : RecordStatus
  | failed : RecordStatus
deriving DecidableEq, Repr

/-- A sibling deployment record as consulted by `reconcile`. -/
structure DeploymentRecord where
  name : String
  latestVersion : Int
  status : RecordStatus
deriving DecidableEq, Repr

/-! ### Convergence predicate (isApplicationOk) -/

/-- Embedding of `isApplicationOk` (marathon-deployer.go): all tasks
running, then true if no health checks are declared, otherwise false as
soon as some task has a nil or non-alive recorded health result. -/
def isApplicationOk (app : Application) : Bool :=
  if !app.allTaskRunning then false
  else
    match app.healthChecks with
    | none => true
    | some hcs =>
      if hcs.length == 0 then true
      else
        app.tasks.all (fun task =>
          task.healthCheckResults.all (fun check =>
            match check with
            | none => false
            | some r => r.alive))

/-- The application declares at least one health check. -/
def declaresHealthChecks (app : Application) : Bool :=
  match app.healthChecks with
  | none => false
  | some hcs => !hcs.isEmpty

/-- The convergence predicate as the specification words it: all tasks
running AND (no health checks declared OR every task has at least one
recorded health result and all of its recorded results are alive) — a
task with no recorded result yet is "not yet conclusive", keeping the
predicate false.  Stated from the spec only, for comparison with
`isApplicationOk`. -/
def isApplicationOkClaim (app : Application) : Bool :=
  app.allTaskRunning &&
    (!declaresHealthChecks app ||
     app.tasks.all (fun task =>
       !task.healthCheckResults.isEmpty &&
       task.healthCheckResults.all (fun check =>
         match check with
         | none => false
         | some r => r.alive)))

/-- A concrete application: one running task that declares a health
check but has no health result recorded yet. -/
def inconclusiveApp : Application :=
  { id := "/p1/web", instances := 1, allTaskRunning := true,
    healthChecks := some [⟨300⟩], tasks := [⟨[]⟩], deployments := [] }

/-! ### Deadline computation and the two poll loops

Each loop iteration sleeps 2 seconds, so with deadline `t` (seconds) a
loop polls at elapsed times 0, 2, ..., i.e. `t / 2 + 1` times, before
the `time.Now().After(stopTime)` guard fires; the fuel of the embedded
loop is exactly that poll budget. -/

/-- 360 seconds, `defaultTimeout` of marathon-deployer.go. -/
def defaultTimeout : Nat := 360

/-- Embedding of `determineTimeout`: start from the default and take
any larger declared grace period. -/
def determineTimeout : Option Application → Nat
  | none => defaultTimeout
  | some app =>
    match app.healthChecks with
    | none => defaultTimeout
    | some hcs =>
      if 0 < hcs.length then
        hcs.foldl
          (fun mx h => if mx < h.gracePeriodSeconds then h.gracePeriodSeconds else mx)
          defaultTimeout
      else defaultTimeout

/-- The largest declared grace period, 0 when none: the formula the
specification uses to describe the deadline. -/
def maxGracePeriod (hcs : List HealthCheck) : Nat :=
  hcs.foldl (fun acc h => Nat.max acc h.gracePeriodSeconds) 0

def appTimeoutMsg : String := "timeout of waiting for application"

def dpTimeoutMsg : String := "timeout while waiting for deployment"

/-- The poll oracle of `waitForApplication`: iteration `k` yields the
result of `GetApplication` (a nil application is a valid result). -/
abbrev AppPoll := Nat → Except String (Option Application)

/-- The poll oracle of `waitForDeployment`: iteration `k` yields the
result of `GetDeployment` (nil means the deployment is gone). -/
abbrev DpPoll := Nat → Except String (Option String)

/-- Poll loop of `waitForApplication`: succeed when a poll returns no
error and either a nil application (rolled back to non-creation) or an
application satisfying `isApplicationOk`; any error is ignored and the
loop retries after the fixed sleep, until the fuel (deadline) runs out. -/
def waitAppLoop (poll : AppPoll) : Nat → Except String Unit
  | 0 => Except.error appTimeoutMsg
  | fuel + 1 =>
    match poll 0 with
    | Except.ok none => Except.ok ()
    | Except.ok (some app) =>
      if isApplicationOk app then Except.ok ()
      else waitAppLoop (fun k => poll (k + 1)) fuel
    | Except.error _ => waitAppLoop (fun k => poll (k + 1)) fuel

/-- Embedding of `waitForApplication` with deadline `timeout` seconds. -/
def waitForApplication (poll : AppPoll) (timeout : Nat) : Except String Unit :=
  waitAppLoop poll (timeout / 2 + 1)

/-- Poll loop of `waitForDeployment`: succeed only when a poll returns
no error and a nil deployment (absence means completion); everything
else retries until the fuel runs out. -/
def waitDpLoop (poll : DpPoll) : Nat → Except String Unit
  | 0 => Except.error dpTimeoutMsg
  | fuel + 1 =>
    match poll 0 with
    | Except.ok none => Except.ok ()
    | _ => waitDpLoop (fun k => poll (k + 1)) fuel

/-- Embedding of `waitForDeployment` with deadline `timeout` seconds. -/
def waitForDeployment (poll : DpPoll) (timeout : Nat) : Except String Unit :=
  waitDpLoop poll (timeout / 2 + 1)

/-- Does one application poll outcome satisfy the loop's success test? -/
def appPollDone : Except String (Option Application) → Bool
  | Except.ok none => true
  | Except.ok (some app) => isApplicationOk app
  | Except.error _ => false

/-- Does one deployment poll outcome satisfy the loop's success test? -/
def dpPollDone : Except String (Option String) → Bool
  | Except.ok none => true
  | Except.ok (some _) => false
  | Except.error _ => false

/-! ### The deployer actions as call-trace functions

A run is embedded as a function from the loaded record data plus an
oracle of remote responses to the final `Except` outcome and the
chronological list of scheduler calls issued. -/

/-- A call issued against the site agent / scheduler client. -/
inductive RemoteCall where
  | createApplication : String → String → String → RemoteCall
  | updateApplication : String → String → String → Bool → RemoteCall
  | scaleApplication : String → String → String → Int → RemoteCall
  | deleteDeployment : String → String → String → RemoteCall
  | waitDeployment : String → RemoteCall
  | waitApplication : RemoteCall
deriving DecidableEq, Repr

/-- The data `execute` loads before deciding an action. -/
structure DeployCtx where
  siteId : String
  projId : String
  appId : String
  currentName : String
  desiredReplicas : Int
  desiredApp : Option Application
  actualApp : Option Application

/-- Pre-determined remote responses consumed by a run. -/
structure Oracle where
  createRes : Except String Unit
  updateRes : Except String DeploymentID
  scaleRes : Except String DeploymentID
  deleteDpRes : Except String DeploymentID
  listRecordsRes : Except String (List DeploymentRecord)
  dpPolls : DpPoll
  appPolls : AppPoll

/-- Embedding of `postMarathonDeploymentProcessing`: when a deployment
id is known, first wait for that remote deployment to disappear, then
(always) wait for the application to become ok; both waits use the same
deadline `determineTimeout desiredApp`. -/
def postProcessing (ctx : DeployCtx) (o : Oracle) (deploy : Option DeploymentID) :
    Except String Unit × List RemoteCall :=
  match deploy with
  | some dp =>
    match waitForDeployment o.dpPolls (determineTimeout ctx.desiredApp) with
    | Except.error e =>
      (Except.error ("failed to wait until marathon deployment ok: " ++ e),
       [RemoteCall.waitDeployment dp.deploymentId])
    | Except.ok _ =>
      match waitForApplication o.appPolls (determineTimeout ctx.desiredApp) with
      | Except.error e =>
        (Except.error ("failed to wait until marathon application gets ready: " ++ e),
         [RemoteCall.waitDeployment dp.deploymentId, RemoteCall.waitApplication])
      | Except.ok _ =>
        (Except.ok (),
         [RemoteCall.waitDeployment dp.deploymentId, RemoteCall.waitApplication])
  | none =>
    match waitForApplication o.appPolls (determineTimeout ctx.desiredApp) with
    | Except.error e =>
      (Except.error ("failed to wait until marathon application gets ready: " ++ e),
       [RemoteCall.waitApplication])
    | Except.ok _ => (Except.ok (), [RemoteCall.waitApplication])

def alreadyInDeploymentMsg : String :=
  "aborted because the application currently is in deployment"

/-- Embedding of `deploy(force)`.  Absent app: create; existing app
with an active deployment and no force: abort before any call; else
update.  In the source the error of `postMarathonDeploymentProcessing`
is assigned to an `err` variable shadowed inside the branch, so the
final error check of `deploy` reads the outer `err`, which is still
nil: both the create and the update success paths return nil no matter
how the waits end.  The embedding reproduces that. -/
def deploy (ctx : DeployCtx) (o : Oracle) (force : Bool) :
    Except String Unit × List RemoteCall :=
  match ctx.actualApp with
  | none =>
    match o.createRes with
    | Except.error e =>
      (Except.error ("aborted upon failure of app creation request: " ++ e),
       [RemoteCall.createApplication ctx.siteId ctx.projId ctx.appId])
    | Except.ok _ =>
      (Except.ok (),
       RemoteCall.createApplication ctx.siteId ctx.projId ctx.appId ::
         (postProcessing ctx o none).2)
  | some app =>
    if !force && !app.deployments.isEmpty then
      (Except.error alreadyInDeploymentMsg, [])
    else
      match o.updateRes with
      | Except.error e =>
        (Except.error ("failed to update application: " ++ e),
         [RemoteCall.updateApplication ctx.siteId ctx.projId ctx.appId force])
      | Except.ok dp =>
        (Except.ok (),
         RemoteCall.updateApplication ctx.siteId ctx.projId ctx.appId force ::
           (postProcessing ctx o (some dp)).2)

/-- Embedding of `scale()`: absent app is fatal; equal instance count is
an immediate no-op success; an active deployment is fatal; otherwise
scale and wait (here the wait errors do propagate: `scale` has no
shadowed `err`). -/
def scale (ctx : DeployCtx) (o : Oracle) : Except String Unit × List RemoteCall :=
  match ctx.actualApp with
  | none => (Except.error "aborted because the application does not exist", [])
  | some app =>
    if app.instances == ctx.desiredReplicas then (Except.ok (), [])
    else if !app.deployments.isEmpty then (Except.error alreadyInDeploymentMsg, [])
    else
      match o.scaleRes with
      | Except.error e =>
        (Except.error ("failed to scale app: " ++ e),
         [RemoteCall.scaleApplication ctx.siteId ctx.projId ctx.appId ctx.desiredReplicas])
      | Except.ok dp =>
        let post := postProcessing ctx o (some dp)
        (post.1,
         RemoteCall.scaleApplication ctx.siteId ctx.projId ctx.appId ctx.desiredReplicas
           :: post.2)

/-- Embedding of `retry()`: when the desired spec deep-matches the
actual one (`specsMatch`, the outcome of `kapi.Semantic.DeepDerivative`),
just wait on the in-flight deployment if any; otherwise run a full
non-forced deploy. -/
def retry (ctx : DeployCtx) (o : Oracle) (specsMatch : Bool) :
    Except String Unit × List RemoteCall :=
  if specsMatch then
    let dp : Option DeploymentID :=
      match ctx.actualApp with
      | some app =>
        match app.deployments with
        | d :: _ => some ⟨d, ""⟩
        | [] => none
      | none => none
    postProcessing ctx o dp
  else deploy ctx o false

/-- Descending insertion by latest version (`ByLatestVersionDesc`). -/
def insertByVersionDesc (r : DeploymentRecord) :
    List DeploymentRecord → List DeploymentRecord
  | [] => [r]
  | x :: xs =>
    if x.latestVersion ≤ r.latestVersion then r :: x :: xs
    else x :: insertByVersionDesc r xs

/-- Sort sibling records by latest version, descending. -/
def sortByLatestVersionDesc : List DeploymentRecord → List DeploymentRecord
  | [] => []
  | r :: rs => insertByVersionDesc r (sortByLatestVersionDesc rs)

/-- The first record (in the sorted order) that is not the current one
and reached the complete status. -/
def findRollbackTarget (currentName : String) (records : List DeploymentRecord) :
    Option DeploymentRecord :=
  records.find?
    (fun c => c.name != currentName && c.status == RecordStatus.complete)

def nowhereToRollbackMsg : String :=
  "failed because the app has nowhere to rollback"

/-- Embedding of `reconcile()`: look for a completed sibling record to
roll back to (forced deploy); with none, delete the app's active remote
deployment if there is one (aborting on a delete failure, otherwise
waiting with the result ignored) and fail with "nowhere to rollback". -/
def reconcile (ctx : DeployCtx) (o : Oracle) : Except String Unit × List RemoteCall :=
  match o.listRecordsRes with
  | Except.error e => (Except.error ("could not get controllers: " ++ e), [])
  | Except.ok unsorted =>
    let records := sortByLatestVersionDesc unsorted
    match findRollbackTarget ctx.currentName records with
    | some _ => deploy ctx o true
    | none =>
      match ctx.actualApp with
      | none => (Except.error nowhereToRollbackMsg, [])
      | some app =>
        match app.deployments with
        | [] => (Except.error nowhereToRollbackMsg, [])
        | dpId :: _ =>
          match o.deleteDpRes with
          | Except.error e =>
            (Except.error ("failed because of failure of rollback: " ++ e),
             [RemoteCall.deleteDeployment ctx.siteId ctx.projId dpId])
          | Except.ok dp =>
            (Except.error nowhereToRollbackMsg,
             RemoteCall.deleteDeployment ctx.siteId ctx.projId dpId ::
               (postProcessing ctx o (some dp)).2)

/-- The action an `execute` run performs. -/
inductive MarathonAction where
  | scaleAct : MarathonAction
  | reconcileAct : MarathonAction
  | retryAct : MarathonAction
  | deployAct : MarathonAction
deriving DecidableEq, Repr

/-- An action annotation (the version it carries, when present) selects
its action only if that version equals the record's latest version. -/
def annMatches : Option Int → Int → Bool
  | some v, latest => v == latest
  | none, _ => false

/-- Embedding of the decision tail of `execute()`: scale, then
reconcile, then retry, each gated on its annotation's version matching
the latest version; default deploy. -/
def decideAction (scaleAnn reconcileAnn retryAnn : Option Int) (latest : Int) :
    MarathonAction :=
  if annMatches scaleAnn latest then MarathonAction.scaleAct
  else if annMatches reconcileAnn latest then MarathonAction.reconcileAct
  else if annMatches retryAnn latest then MarathonAction.retryAct
  else MarathonAction.deployAct

/-- The decided action dispatched to its implementation, as `execute()`
does. -/
def executeDecided (ctx : DeployCtx) (o : Oracle)
    (scaleAnn reconcileAnn retryAnn : Option Int) (latest : Int)
    (specsMatch : Bool) : Except String Unit × List RemoteCall :=
  match decideAction scaleAnn reconcileAnn retryAnn latest with
  | MarathonAction.scaleAct => scale ctx o
  | MarathonAction.reconcileAct => reconcile ctx o
  | MarathonAction.retryAct => retry ctx o specsMatch
  | MarathonAction.deployAct => deploy ctx o false


/-! ### Concrete fixtures used by the witness theorems -/

/-- A sample deployment id returned by mutating calls. -/
def sampleDeploymentID : DeploymentID := ⟨"dp-1", "v1"⟩

/-- An existing application with 3 instances and one active remote
deployment. -/
def appWithDeployment : Application :=
  { id := "/p1/web", instances := 3, allTaskRunning := true,
    healthChecks := none, tasks := [], deployments := ["dp-0"] }

/-- A fixed oracle of remote responses. -/
def sampleOracle : Oracle :=
  { createRes := Except.ok ()
    updateRes := Except.ok sampleDeploymentID
    scaleRes := Except.ok sampleDeploymentID
    deleteDpRes := Except.ok sampleDeploymentID
    listRecordsRes := Except.ok []
    dpPolls := fun _ => Except.ok none
    appPolls := fun _ => Except.ok none }

/-- A context whose actual application already has the desired replica
count (and an active deployment). -/
def scaleNoopCtx : DeployCtx :=
  { siteId := "west", projId := "p1", appId := "web", currentName := "deploy-2",
    desiredReplicas := 3, desiredApp := none, actualApp := some appWithDeployment }

/-- A context for a reconcile run with no completed sibling record. -/
def reconcileCtx : DeployCtx :=
  { siteId := "west", projId := "p1", appId := "web", currentName := "deploy-3",
    desiredReplicas := 3, desiredApp := none, actualApp := some appWithDeployment }

/-- A context whose application is absent remotely. -/
def absentAppCtx : DeployCtx :=
  { siteId := "west", projId := "p1", appId := "web", currentName := "deploy-1",
    desiredReplicas := 3, desiredApp := none, actualApp := none }

end Deployer

/-! ## Theorems -/

namespace SiteAgent

/-- C1: a DELETE tasks request whose body contains a task id that does
not begin with the prefix `"<project>_<app>."` is rejected with 406 and
KillTasks is never invoked; KillTasks runs only when every id carries
the prefix. -/
theorem deleteTasks_tenant_isolation (cfgSite siteId projId appId : String)
    (taskIds : List String) (scaleOpt : Bool) (killRes : Except String Unit) :
    ((∃ t ∈ taskIds, strHasPrefix t (projId ++ "_" ++ appId ++ ".") = false) →
      deleteTasks cfgSite siteId projId appId taskIds scaleOpt killRes = (406, none)) ∧
    (∀ killed scaleArg,
      (deleteTasks cfgSite siteId projId appId taskIds scaleOpt killRes).2
          = some (killed, scaleArg) →
      ∀ t ∈ taskIds, strHasPrefix t (projId ++ "_" ++ appId ++ ".") = true) := by
  constructor
  · rintro ⟨t, ht, hpre⟩
    unfold deleteTasks
    cases hs : (siteId != cfgSite) with
    | true => simp [hs]
    | false =>
      have hne : taskIds.find?
          (fun s => !strHasPrefix s (projId ++ "_" ++ appId ++ ".")) ≠ none := by
        intro hn
        rw [List.find?_eq_none] at hn
        have := hn t ht
        simp [hpre] at this
      cases hfind : taskIds.find?
          (fun s => !strHasPrefix s (projId ++ "_" ++ appId ++ ".")) with
      | none => exact absurd hfind hne
      | some u => simp [hs, hfind]
  · intro killed scaleArg hkill t ht
    unfold deleteTasks at hkill
    cases hs : (siteId != cfgSite) with
    | true => simp [hs] at hkill
    | false =>
      simp only [hs] at hkill
      cases hfind : taskIds.find?
          (fun s => !strHasPrefix s (projId ++ "_" ++ appId ++ ".")) with
      | some u => simp [hfind] at hkill
      | none =>
        rw [List.find?_eq_none] at hfind
        have := hfind t ht
        simpa using this

/-- C1 witness: a foreign task id ("p2_web.a" under project p1/app web)
is rejected with no kill call, and a kill of "p1_web.a" implies the
prefix check passed for it. -/
theorem deleteTasks_tenant_isolation_witness :
    deleteTasks "west" "west" "p1" "web" ["p2_web.a"] false (Except.ok ())
        = (406, none) ∧
    strHasPrefix "p1_web.a" ("p1" ++ "_" ++ "web" ++ ".") = true :=
  ⟨(deleteTasks_tenant_isolation "west" "west" "p1" "web" ["p2_web.a"] false
      (Except.ok ())).1 ⟨"p2_web.a", by decide, by decide⟩,
   (deleteTasks_tenant_isolation "west" "west" "p1" "web" ["p1_web.a"] false
      (Except.ok ())).2 ["p1_web.a"] false (by decide) "p1_web.a" (by decide)⟩

/-- C3: contrary to the claim that no scheduler failure can crash a
handler, `getProjectApplicationList` reads `project.Apps` before
checking the error of the remote Group call, so a failed call (nil
group pointer) nil-dereferences and panics — both for a NotFound
outcome (the claim expects 404) and for any other failure (the claim
expects 406).  With a non-nil group the usual 200 mapping applies. -/
theorem getProjectApplicationList_group_failure_panics :
    getProjectApplicationList "west" "west" "p1" none (some MarathonError.notFound)
        = Except.error GoPanic.nilDereference ∧
    getProjectApplicationList "west" "west" "p1" none
          (some (MarathonError.other "connection refused"))
        = Except.error GoPanic.nilDereference ∧
    getProjectApplicationList "west" "west" "p1" (some ⟨["/p1/web"]⟩) none
        = Except.ok 200 :=
  ⟨rfl, rfl, rfl⟩

/-- C9 counterexample: the project-quota route requires a strict
superset of the get-project route's query keys, and a request
satisfying the quota route in full is nevertheless dispatched to the
earlier-registered get-project route — the less specific route wins,
refuting the claim. -/
theorem route_precedence_counterexample :
    keysStrictlyBelow getProjectRoute getProjectQuotaRoute = true ∧
    routeMatches quotaQuery getProjectQuotaRoute = true ∧
    dispatch getProxyRoutes quotaQuery = some getProjectRoute ∧
    getProjectRoute ≠ getProjectQuotaRoute := by
  decide

/-- C9 amended: in every method's /proxy route list, whenever one
route's required keys are a strict subset of another's and the two
routes do not demand conflicting literal values for a common key, the
more specific route is registered first — with the single exception of
the project-quota route, registered after the more general get-project
route; consequently the claim's example dispatches to the version-list
handler, while a quota request dispatches to get-project. -/
theorem route_precedence_amended :
    specificityOrderOk "getProject" "getProjectQuota" getProxyRoutes = true ∧
    specificityOrderOk "" "" putProxyRoutes = true ∧
    specificityOrderOk "" "" postProxyRoutes = true ∧
    specificityOrderOk "" "" deleteProxyRoutes = true ∧
    dispatch getProxyRoutes versionListQuery = some getVersionListRoute ∧
    dispatch getProxyRoutes quotaQuery = some getProjectRoute := by
  decide

end SiteAgent

namespace Deployer

/-- The alive test on an optional recorded health result, as a
predicate on the recorded value. -/
theorem healthResultAlive_iff (c : Option HealthCheckResult) :
    (match c with
     | none => false
     | some r => r.alive) = true ↔ ∃ r, c = some r ∧ r.alive = true := by
  cases c <;> simp

/-- C4 counterexample: an application whose single running task
declares a health check but has no recorded health result yet makes
`isApplicationOk` TRUE, while the claim ("not yet conclusive, the
predicate stays false") demands false, as `isApplicationOkClaim`
renders it. -/
theorem isApplicationOk_missing_result_counterexample :
    isApplicationOk inconclusiveApp = true ∧
    isApplicationOkClaim inconclusiveApp = false ∧
    declaresHealthChecks inconclusiveApp = true ∧
    inconclusiveApp.allTaskRunning = true ∧
    inconclusiveApp.tasks = [⟨[]⟩] := by
  decide

/-- C4 amended: `isApplicationOk` is true iff all tasks are running and
(no health checks are declared, or every ENTRY of every task's recorded
health-result list is a present, alive result) — a task with an empty
recorded-result list counts vacuously as passing, not as inconclusive. -/
theorem isApplicationOk_characterization (app : Application) :
    isApplicationOk app = true ↔
      (app.allTaskRunning = true ∧
       (declaresHealthChecks app = false ∨
        ∀ t ∈ app.tasks, ∀ c ∈ t.healthCheckResults,
          ∃ r, c = some r ∧ r.alive = true)) := by
  unfold isApplicationOk declaresHealthChecks
  cases happ : app.allTaskRunning with
  | false => simp
  | true =>
    simp only [Bool.not_true, Bool.false_eq_true, if_false, true_and]
    cases hhc : app.healthChecks with
    | none => simp
    | some hcs =>
      cases hcs with
      | nil => simp
      | cons hc rest =>
        simp [List.all_eq_true, healthResultAlive_iff]

/-- C6: a SCALE run whose actual application already has the desired
instance count succeeds immediately with an empty call trace — no
scale call, no wait. -/
theorem scale_idempotent_noop (ctx : DeployCtx) (o : Oracle) (app : Application)
    (hactual : ctx.actualApp = some app)
    (heq : app.instances = ctx.desiredReplicas) :
    scale ctx o = (Except.ok (), []) := by
  unfold scale
  rw [hactual]
  simp [heq]

/-- C6 witness: scaling to 3 when 3 instances exist (even with an
active deployment) is a no-op success. -/
theorem scale_idempotent_noop_witness :
    scale scaleNoopCtx sampleOracle = (Except.ok (), []) :=
  scale_idempotent_noop scaleNoopCtx sampleOracle appWithDeployment rfl rfl

/-- C8: the action is decided in the priority order scale, reconcile,
retry, each taken only when its annotation carries the latest version;
otherwise the default deploy runs.  An annotation matches iff it is
present and carries exactly the latest version. -/
theorem decideAction_priority (scaleAnn reconcileAnn retryAnn : Option Int)
    (latest : Int) :
    (annMatches scaleAnn latest = true →
      decideAction scaleAnn reconcileAnn retryAnn latest = MarathonAction.scaleAct) ∧
    (annMatches scaleAnn latest = false → annMatches reconcileAnn latest = true →
      decideAction scaleAnn reconcileAnn retryAnn latest = MarathonAction.reconcileAct) ∧
    (annMatches scaleAnn latest = false → annMatches reconcileAnn latest = false →
      annMatches retryAnn latest = true →
      decideAction scaleAnn reconcileAnn retryAnn latest = MarathonAction.retryAct) ∧
    (annMatches scaleAnn latest = false → annMatches reconcileAnn latest = false →
      annMatches retryAnn latest = false →
      decideAction scaleAnn reconcileAnn retryAnn latest = MarathonAction.deployAct) ∧
    (∀ v : Int, annMatches (some v) latest = (v == latest)) ∧
    annMatches (none : Option Int) latest = false := by
  refine ⟨?_, ?_, ?_, ?_, fun v => rfl, rfl⟩
  · intro h; simp [decideAction, h]
  · intro h1 h2; simp [decideAction, h1, h2]
  · intro h1 h2 h3; simp [decideAction, h1, h2, h3]
  · intro h1 h2 h3; simp [decideAction, h1, h2, h3]

/-- C8 witness: the four decision outcomes at concrete annotations
with latest version 5. -/
theorem decideAction_priority_witness :
    decideAction (some 5) (some 5) none 5 = MarathonAction.scaleAct ∧
    decideAction (some 4) (some 5) (some 5) 5 = MarathonAction.reconcileAct ∧
    decideAction (some 4) none (some 5) 5 = MarathonAction.retryAct ∧
    decideAction (some 4) (some 3) (some 2) 5 = MarathonAction.deployAct :=
  ⟨(decideAction_priority (some 5) (some 5) none 5).1 (by decide),
   (decideAction_priority (some 4) (some 5) (some 5) 5).2.1 (by decide) (by decide),
   (decideAction_priority (some 4) none (some 5) 5).2.2.1
     (by decide) (by decide) (by decide),
   (decideAction_priority (some 4) (some 3) (some 2) 5).2.2.2.1
     (by decide) (by decide) (by decide)⟩

end Deployer

namespace Deployer

/-- Max with zero on the left. -/
theorem nat_max_zero_left (a : Nat) : Nat.max 0 a = a := by
  simp only [Nat.max_def]
  split <;> omega

/-- Associativity of Nat.max. -/
theorem nat_max_assoc (a b c : Nat) :
    Nat.max (Nat.max a b) c = Nat.max a (Nat.max b c) := by
  simp only [Nat.max_def]
  repeat' split
  all_goals omega

/-- Nat.max picks the right argument when it dominates. -/
theorem nat_max_eq_right {a b : Nat} (h : a ≤ b) : Nat.max a b = b := by
  simp only [Nat.max_def]
  split <;> omega

/-- Nat.max picks the left argument when it dominates. -/
theorem nat_max_eq_left {a b : Nat} (h : b ≤ a) : Nat.max a b = a := by
  simp only [Nat.max_def]
  split <;> omega

/-- Folding the running-max update of `determineTimeout` from any seed
yields the max of the seed and the largest grace period. -/
theorem maxGrace_foldl_init (l : List HealthCheck) (a : Nat) :
    l.foldl (fun acc h => Nat.max acc h.gracePeriodSeconds) a
      = Nat.max a (maxGracePeriod l) := by
  induction l generalizing a with
  | nil => simp [maxGracePeriod]
  | cons h t ih =>
    simp only [List.foldl_cons]
    rw [ih]
    have hstep : maxGracePeriod (h :: t)
        = Nat.max h.gracePeriodSeconds (maxGracePeriod t) := by
      have h0 : maxGracePeriod (h :: t)
          = t.foldl (fun acc x => Nat.max acc x.gracePeriodSeconds)
              (Nat.max 0 h.gracePeriodSeconds) := rfl
      rw [h0, ih, nat_max_zero_left]
    rw [hstep, nat_max_assoc]

/-- The if-based running max of the source equals the max formula. -/
theorem determineTimeout_foldl (l : List HealthCheck) (d : Nat) :
    l.foldl
        (fun mx h => if mx < h.gracePeriodSeconds then h.gracePeriodSeconds else mx) d
      = Nat.max d (maxGracePeriod l) := by
  induction l generalizing d with
  | nil => simp [maxGracePeriod]
  | cons h t ih =>
    simp only [List.foldl_cons]
    rw [ih]
    have hite : (if d < h.gracePeriodSeconds then h.gracePeriodSeconds else d)
        = Nat.max d h.gracePeriodSeconds := by
      by_cases hd : d < h.gracePeriodSeconds
      · rw [if_pos hd, nat_max_eq_right (Nat.le_of_lt hd)]
      · rw [if_neg hd, nat_max_eq_left (Nat.le_of_not_lt hd)]
    have hmax : maxGracePeriod (h :: t)
        = Nat.max h.gracePeriodSeconds (maxGracePeriod t) := by
      have h0 : maxGracePeriod (h :: t)
          = t.foldl (fun acc x => Nat.max acc x.gracePeriodSeconds)
              (Nat.max 0 h.gracePeriodSeconds) := rfl
      rw [h0, maxGrace_foldl_init, nat_max_zero_left]
    rw [hite, hmax, nat_max_assoc]

/-- If no poll ever satisfies the success test, the application wait
loop exhausts its fuel and reports the timeout error. -/
theorem waitAppLoop_timeout (fuel : Nat) :
    ∀ poll : AppPoll, (∀ k, appPollDone (poll k) = false) →
      waitAppLoop poll fuel = Except.error appTimeoutMsg := by
  induction fuel with
  | zero => intro poll _; rfl
  | succ n ih =>
    intro poll h
    have h0 := h 0
    unfold waitAppLoop
    cases hp : poll 0 with
    | ok oa =>
      cases oa with
      | none => rw [hp] at h0; simp [appPollDone] at h0
      | some app =>
        rw [hp] at h0
        simp only [appPollDone] at h0
        simp only [h0, Bool.false_eq_true, if_false]
        exact ih _ (fun k => h (k + 1))
    | error e =>
      exact ih _ (fun k => h (k + 1))

/-- Any error produced by the application wait loop is the timeout
error: poll errors never surface. -/
theorem waitAppLoop_error_eq_timeout (fuel : Nat) :
    ∀ (poll : AppPoll) (e : String), waitAppLoop poll fuel = Except.error e →
      e = appTimeoutMsg := by
  induction fuel with
  | zero =>
    intro poll e he
    unfold waitAppLoop at he
    injection he with h
    exact h.symm
  | succ n ih =>
    intro poll e he
    unfold waitAppLoop at he
    cases hp : poll 0 with
    | ok oa =>
      cases oa with
      | none => rw [hp] at he; simp at he
      | some app =>
        rw [hp] at he
        by_cases hok : isApplicationOk app = true
        · simp [hok] at he
        · simp only [Bool.not_eq_true] at hok
          simp only [hok, Bool.false_eq_true, if_false] at he
          exact ih _ _ he
    | error msg =>
      rw [hp] at he
      exact ih _ _ he

/-- If some poll within the fuel window returns no error and a nil
application, the application wait loop succeeds. -/
theorem waitAppLoop_nil_app_succeeds (fuel : Nat) :
    ∀ (poll : AppPoll) (k : Nat), k < fuel → poll k = Except.ok none →
      waitAppLoop poll fuel = Except.ok () := by
  induction fuel with
  | zero => intro poll k hk _; omega
  | succ n ih =>
    intro poll k hk hpk
    unfold waitAppLoop
    cases k with
    | zero => rw [hpk]
    | succ m =>
      cases hp : poll 0 with
      | ok oa =>
        cases oa with
        | none => rfl
        | some app =>
          by_cases hok : isApplicationOk app = true
          · simp [hok]
          · simp only [Bool.not_eq_true] at hok
            simp only [hok, Bool.false_eq_true, if_false]
            exact ih _ m (by omega) hpk
      | error msg =>
        exact ih _ m (by omega) hpk

/-- If no poll ever satisfies the success test, the deployment wait
loop exhausts its fuel and reports the timeout error. -/
theorem waitDpLoop_timeout (fuel : Nat) :
    ∀ poll : DpPoll, (∀ k, dpPollDone (poll k) = false) →
      waitDpLoop poll fuel = Except.error dpTimeoutMsg := by
  induction fuel with
  | zero => intro poll _; rfl
  | succ n ih =>
    intro poll h
    have h0 := h 0
    unfold waitDpLoop
    cases hp : poll 0 with
    | ok oa =>
      cases oa with
      | none => rw [hp] at h0; simp [dpPollDone] at h0
      | some d => exact ih _ (fun k => h (k + 1))
    | error e =>
      exact ih _ (fun k => h (k + 1))

/-- C5: the convergence deadline is `max(360, largest declared grace
period)` — 360 when no health checks are declared — and each of the
two sequential poll phases, run with that same deadline by
`postProcessing`, terminates with a timeout error (rather than polling
forever) when its polls never report completion. -/
theorem convergence_deadline_and_timeout :
    (determineTimeout none = defaultTimeout) ∧
    (∀ app : Application, app.healthChecks = none →
      determineTimeout (some app) = defaultTimeout) ∧
    (∀ (app : Application) (hcs : List HealthCheck),
      app.healthChecks = some hcs →
      determineTimeout (some app) = Nat.max defaultTimeout (maxGracePeriod hcs)) ∧
    (∀ (poll : AppPoll) (t : Nat), (∀ k, appPollDone (poll k) = false) →
      waitForApplication poll t = Except.error appTimeoutMsg) ∧
    (∀ (poll : DpPoll) (t : Nat), (∀ k, dpPollDone (poll k) = false) →
      waitForDeployment poll t = Except.error dpTimeoutMsg) ∧
    (∀ (ctx : DeployCtx) (o : Oracle) (dp : DeploymentID),
      (postProcessing ctx o (some dp)).1 = Except.ok () →
        waitForDeployment o.dpPolls (determineTimeout ctx.desiredApp)
            = Except.ok () ∧
        waitForApplication o.appPolls (determineTimeout ctx.desiredApp)
            = Except.ok ()) := by
  refine ⟨rfl, ?_, ?_, ?_, ?_, ?_⟩
  · intro app h
    simp only [determineTimeout, h]
  · intro app hcs h
    simp only [determineTimeout, h]
    cases hcs with
    | nil => simp [maxGracePeriod]
    | cons hc rest =>
      have hlen : 0 < (hc :: rest).length := by simp
      rw [if_pos hlen]
      exact determineTimeout_foldl _ _
  · intro poll t h
    exact waitAppLoop_timeout _ poll h
  · intro poll t h
    exact waitDpLoop_timeout _ poll h
  · intro ctx o dp h
    unfold postProcessing at h
    cases hdp : waitForDeployment o.dpPolls (determineTimeout ctx.desiredApp) with
    | error e => rw [hdp] at h; simp at h
    | ok u =>
      cases happ : waitForApplication o.appPolls (determineTimeout ctx.desiredApp) with
      | error e => rw [hdp, happ] at h; simp at h
      | ok v => exact ⟨rfl, rfl⟩

/-- C5 witness: an application with one 500-second grace period gets a
500-second deadline; a poll that always errors times out. -/
theorem convergence_deadline_and_timeout_witness :
    determineTimeout
        (some { id := "/p1/web", instances := 1, allTaskRunning := true,
                healthChecks := some [⟨500⟩], tasks := [], deployments := [] })
      = Nat.max defaultTimeout (maxGracePeriod [⟨500⟩]) ∧
    waitForApplication (fun _ => Except.error "transient") 4
      = Except.error appTimeoutMsg :=
  ⟨convergence_deadline_and_timeout.2.2.1
      { id := "/p1/web", instances := 1, allTaskRunning := true,
        healthChecks := some [⟨500⟩], tasks := [], deployments := [] }
      [⟨500⟩] rfl,
   convergence_deadline_and_timeout.2.2.2.1
      (fun _ => Except.error "transient") 4 (fun _ => rfl)⟩

/-- C10: in `waitForApplication` a poll that returns no error and a nil
application (the app vanished remotely) makes the wait succeed, and no
poll error ever aborts the wait — the only failure the wait can return
is the deadline timeout. -/
theorem waitForApplication_vanish_and_errors :
    (∀ (poll : AppPoll) (t : Nat) (e : String),
      waitForApplication poll t = Except.error e → e = appTimeoutMsg) ∧
    (∀ (poll : AppPoll) (t : Nat) (k : Nat), k ≤ t / 2 →
      poll k = Except.ok none → waitForApplication poll t = Except.ok ()) := by
  constructor
  · intro poll t e h
    exact waitAppLoop_error_eq_timeout _ poll e h
  · intro poll t k hk hpk
    exact waitAppLoop_nil_app_succeeds _ poll k (by omega) hpk

/-- C10 witness: a wait whose polls always error fails only with the
timeout message, and a nil-application poll at iteration 1 makes a
10-second wait succeed despite an error at iteration 0. -/
theorem waitForApplication_vanish_and_errors_witness :
    appTimeoutMsg = appTimeoutMsg ∧
    waitForApplication
        (fun k => if k == 1 then Except.ok none else Except.error "transient") 10
      = Except.ok () :=
  ⟨waitForApplication_vanish_and_errors.1
      (fun _ => Except.error "transient") 0 appTimeoutMsg rfl,
   waitForApplication_vanish_and_errors.2
      (fun k => if k == 1 then Except.ok none else Except.error "transient")
      10 1 (by omega) rfl⟩

end Deployer

namespace Deployer

/-- Every call recorded by `postProcessing` is one of the two wait
markers: the convergence wait issues no mutating call. -/
theorem postProcessing_calls (ctx : DeployCtx) (o : Oracle) (dp : Option DeploymentID) :
    ∀ c ∈ (postProcessing ctx o dp).2,
      (∃ d, c = RemoteCall.waitDeployment d) ∨ c = RemoteCall.waitApplication := by
  intro c hc
  cases dp with
  | none =>
    cases hw : waitForApplication o.appPolls (determineTimeout ctx.desiredApp) with
    | error e =>
      simp only [postProcessing, hw, List.mem_singleton] at hc
      exact Or.inr hc
    | ok u =>
      simp only [postProcessing, hw, List.mem_singleton] at hc
      exact Or.inr hc
  | some d =>
    cases hw : waitForDeployment o.dpPolls (determineTimeout ctx.desiredApp) with
    | error e =>
      simp only [postProcessing, hw, List.mem_singleton] at hc
      exact Or.inl ⟨d.deploymentId, hc⟩
    | ok u =>
      cases hw2 : waitForApplication o.appPolls (determineTimeout ctx.desiredApp) with
      | error e =>
        simp only [postProcessing, hw, hw2, List.mem_cons, List.mem_singleton,
          List.not_mem_nil, or_false] at hc
        rcases hc with h | h
        · exact Or.inl ⟨d.deploymentId, h⟩
        · exact Or.inr h
      | ok v =>
        simp only [postProcessing, hw, hw2, List.mem_cons, List.mem_singleton,
          List.not_mem_nil, or_false] at hc
        rcases hc with h | h
        · exact Or.inl ⟨d.deploymentId, h⟩
        · exact Or.inr h

/-- C2: the deploy decision table.  Absent app: the first issued call
is a create, and no update is ever issued.  Present app with an active
remote deployment and no force: the run aborts with the
already-in-deployment error before any call.  Present app otherwise
(force set or no active deployment): the first issued call is an
update carrying the given force flag, and no create is ever issued.
The three cases cover all inputs, so exactly one of create, update,
abort occurs. -/
theorem deploy_decision_table (ctx : DeployCtx) (o : Oracle) (force : Bool) :
    (ctx.actualApp = none →
      (deploy ctx o force).2.head?
          = some (RemoteCall.createApplication ctx.siteId ctx.projId ctx.appId) ∧
      (∀ p a i f, RemoteCall.updateApplication p a i f ∉ (deploy ctx o force).2)) ∧
    (∀ app, ctx.actualApp = some app → force = false → app.deployments ≠ [] →
      deploy ctx o force = (Except.error alreadyInDeploymentMsg, [])) ∧
    (∀ app, ctx.actualApp = some app → (force = true ∨ app.deployments = []) →
      (deploy ctx o force).2.head?
          = some (RemoteCall.updateApplication ctx.siteId ctx.projId ctx.appId force) ∧
      (∀ p a i, RemoteCall.createApplication p a i ∉ (deploy ctx o force).2)) := by
  refine ⟨?_, ?_, ?_⟩
  · intro h
    unfold deploy
    rw [h]
    cases hc : o.createRes with
    | error e =>
      refine ⟨rfl, ?_⟩
      intro p a i f hmem
      simp at hmem
    | ok u =>
      refine ⟨rfl, ?_⟩
      intro p a i f hmem
      simp only [List.mem_cons] at hmem
      rcases hmem with h1 | h1
      · simp at h1
      · rcases postProcessing_calls ctx o none _ h1 with ⟨d, hd⟩ | hd <;> simp at hd
  · intro app h hf hne
    have hie : app.deployments.isEmpty = false := by
      cases hd : app.deployments with
      | nil => exact absurd hd hne
      | cons x xs => rfl
    simp [deploy, h, hf, hie]
  · intro app h hca
    have hcond : (!force && !app.deployments.isEmpty) = false := by
      rcases hca with hf | hd
      · rw [hf]; rfl
      · rw [hd]; simp
    simp only [deploy, h]
    rw [hcond]
    simp only [Bool.false_eq_true, if_false]
    cases hu : o.updateRes with
    | error e =>
      refine ⟨rfl, ?_⟩
      intro p a i hmem
      simp at hmem
    | ok dp =>
      refine ⟨rfl, ?_⟩
      intro p a i hmem
      simp only [List.mem_cons] at hmem
      rcases hmem with h1 | h1
      · simp at h1
      · rcases postProcessing_calls ctx o (some dp) _ h1 with ⟨d, hd⟩ | hd <;> simp at hd

/-- C2 witness: an existing app with an active deployment and no force
aborts with no calls; an absent app leads with a create call. -/
theorem deploy_decision_table_witness :
    deploy scaleNoopCtx sampleOracle false
        = (Except.error alreadyInDeploymentMsg, []) ∧
    (deploy absentAppCtx sampleOracle false).2.head?
        = some (RemoteCall.createApplication "west" "p1" "web") :=
  ⟨(deploy_decision_table scaleNoopCtx sampleOracle false).2.1
      appWithDeployment rfl rfl (by simp [appWithDeployment]),
   ((deploy_decision_table absentAppCtx sampleOracle false).1 rfl).1⟩

end Deployer

namespace Deployer

/-- Membership is preserved by the descending insertion. -/
theorem mem_insertByVersionDesc {r x : DeploymentRecord}
    {l : List DeploymentRecord} :
    x ∈ insertByVersionDesc r l ↔ x = r ∨ x ∈ l := by
  induction l with
  | nil => simp [insertByVersionDesc]
  | cons y ys ih =>
    unfold insertByVersionDesc
    by_cases hle : y.latestVersion ≤ r.latestVersion
    · simp [hle, List.mem_cons]
    · simp only [hle, if_false, List.mem_cons, ih]
      tauto

/-- Sorting by version preserves membership. -/
theorem mem_sortByLatestVersionDesc {x : DeploymentRecord}
    {l : List DeploymentRecord} :
    x ∈ sortByLatestVersionDesc l ↔ x ∈ l := by
  induction l with
  | nil => simp [sortByLatestVersionDesc]
  | cons y ys ih =>
    simp [sortByLatestVersionDesc, mem_insertByVersionDesc, ih]

/-- C7: a RECONCILE run whose sibling records (excluding the current
one) contain no record in the complete status always returns an error,
and when the actual application exists and has an active remote
deployment, a delete of that deployment is issued before the failure is
reported. -/
theorem reconcile_no_rollback_target_fails (ctx : DeployCtx) (o : Oracle)
    (records : List DeploymentRecord)
    (hlist : o.listRecordsRes = Except.ok records)
    (hnone : ∀ r ∈ records, r.name ≠ ctx.currentName →
      r.status ≠ RecordStatus.complete) :
    (∃ e, (reconcile ctx o).1 = Except.error e) ∧
    (∀ app d rest, ctx.actualApp = some app → app.deployments = d :: rest →
      RemoteCall.deleteDeployment ctx.siteId ctx.projId d ∈ (reconcile ctx o).2) := by
  have hfind : findRollbackTarget ctx.currentName
      (sortByLatestVersionDesc records) = none := by
    unfold findRollbackTarget
    rw [List.find?_eq_none]
    intro x hx
    have hx' : x ∈ records := mem_sortByLatestVersionDesc.mp hx
    by_cases hn : x.name = ctx.currentName
    · simp [hn]
    · have hs := hnone x hx' hn
      simp [hn, hs]
  constructor
  · cases hact : ctx.actualApp with
    | none =>
      exact ⟨nowhereToRollbackMsg, by simp [reconcile, hlist, hfind, hact]⟩
    | some app =>
      cases hdp : app.deployments with
      | nil =>
        exact ⟨nowhereToRollbackMsg, by simp [reconcile, hlist, hfind, hact, hdp]⟩
      | cons d rest =>
        cases hdel : o.deleteDpRes with
        | error e =>
          exact ⟨"failed because of failure of rollback: " ++ e,
            by simp [reconcile, hlist, hfind, hact, hdp, hdel]⟩
        | ok dp =>
          exact ⟨nowhereToRollbackMsg,
            by simp [reconcile, hlist, hfind, hact, hdp, hdel]⟩
  · intro app d rest hact hdp
    cases hdel : o.deleteDpRes with
    | error e => simp [reconcile, hlist, hfind, hact, hdp, hdel]
    | ok dp => simp [reconcile, hlist, hfind, hact, hdp, hdel]

/-- C7 witness: with no sibling records at all, an app with an active
remote deployment gets that deployment deleted while the run fails. -/
theorem reconcile_no_rollback_target_fails_witness :
    RemoteCall.deleteDeployment "west" "p1" "dp-0"
      ∈ (reconcile reconcileCtx sampleOracle).2 :=
  (reconcile_no_rollback_target_fails reconcileCtx sampleOracle [] rfl
      (by intro r hr; simp at hr)).2
    appWithDeployment "dp-0" [] rfl rfl

end Deployer
